import Mathlib

/-!
Verification development for the S3 sync service of `mcp-json-query`
(`src/services/s3-sync.ts`).  The service is shallowly embedded: the
filesystem is an association list from paths to entries, the S3 store and
the stream outcomes are oracles carried in a `World`, and every effectful
method returns its result together with the updated filesystem and the
list of externally visible actions it performed, in order.

Paths are modelled with the semantics of Node's `path` module (posix):
`join`, `resolve`, `basename`, `dirname` below follow Node's
`normalizeString`-based algorithms segment by segment.
-/

namespace S3SyncModel

/-- Splitting a character list at every occurrence of `sep`, with the
semantics of JavaScript `split` on a one-character separator (an empty
input yields one empty piece). -/
def splitChar (sep : Char) : List Char → List (List Char)
  | [] => [[]]
  | c :: rest =>
    if c = sep then [] :: splitChar sep rest
    else
      match splitChar sep rest with
      | [] => [[c]]
      | s :: ss => (c :: s) :: ss

/-- Joining pieces back with a one-character separator. -/
def joinChar (sep : Char) : List (List Char) → List Char
  | [] => []
  | [s] => s
  | s :: rest => s ++ sep :: joinChar sep rest

/-- Core of Node's `path.normalizeString`: processes the segments of a
path left to right, dropping empty and `.` segments and resolving `..`
segments against the accumulator; when `allowAboveRoot` is true, surplus
`..` segments are kept at the front (relative paths), otherwise they are
discarded (absolute paths). -/
def normSegs (allowAboveRoot : Bool) : List (List Char) → List (List Char) → List (List Char)
  | acc, [] => acc.reverse
  | acc, seg :: rest =>
    if seg = [] ∨ seg = ['.'] then normSegs allowAboveRoot acc rest
    else if seg = ['.', '.'] then
      match acc with
      | [] => normSegs allowAboveRoot (if allowAboveRoot then [['.', '.']] else []) rest
      | a :: acc2 =>
        if a = ['.', '.'] then
          normSegs allowAboveRoot (if allowAboveRoot then ['.', '.'] :: acc else acc) rest
        else normSegs allowAboveRoot acc2 rest
    else normSegs allowAboveRoot (seg :: acc) rest

/-- Node `path.posix.normalize`. -/
def pathNormalize (s : String) : String :=
  if s = "" then "." else
  let isAbs := decide (s.data.head? = some '/')
  let trailing := decide (s.data.getLast? = some '/')
  let p := String.mk (joinChar '/' (normSegs (!isAbs) [] (splitChar '/' s.data)))
  let p := if p = "" ∧ isAbs = false then "." else p
  let p := if p ≠ "" ∧ trailing = true then p ++ "/" else p
  if isAbs then "/" ++ p else p

/-- Node `path.posix.join` restricted to two arguments (the only arity the
service uses): empty arguments are skipped, the remainder is joined with a
separator and normalized. -/
def pathJoin (a b : String) : String :=
  if a = "" ∧ b = "" then "."
  else if a = "" then pathNormalize b
  else if b = "" then pathNormalize a
  else pathNormalize (a ++ "/" ++ b)

/-- Node `path.posix.resolve` for a single argument, with the process
working directory `cwd` supplied explicitly: a relative path is stacked on
`cwd`, and the result is normalized with surplus `..` discarded. -/
def pathResolve (cwd p : String) : String :=
  let full := if p = "" then cwd else if p.data.head? = some '/' then p else cwd ++ "/" ++ p
  "/" ++ String.mk (joinChar '/' (normSegs false [] (splitChar '/' full.data)))

/-- Node `path.posix.basename` (no suffix argument): trailing separators
are ignored, then the last segment is returned. -/
def pathBasename (p : String) : String :=
  String.mk ((((p.data).reverse).dropWhile (fun c => c = '/')).takeWhile
    (fun c => c ≠ '/')).reverse

/-- Node `path.posix.dirname`. -/
def pathDirname (p : String) : String :=
  if p = "" then "." else
  let hasRoot := p.data.head? = some '/'
  let rev1 := (p.data.reverse).dropWhile (fun c => c = '/')
  let rev2 := rev1.dropWhile (fun c => c ≠ '/')
  let res := (rev2.drop 1).reverse
  if rev2 = [] ∨ res = [] then (if hasRoot then "/" else ".")
  else if hasRoot ∧ res = ['/'] then "//"
  else String.mk res

/-- JavaScript `key.replace(two-dot-regex-global, empty)`: scans left to
right, removing each non-overlapping occurrence of two consecutive dots. -/
def removeDotDot : List Char → List Char
  | [] => []
  | [c] => [c]
  | c1 :: c2 :: rest =>
    if c1 = '.' ∧ c2 = '.' then removeDotDot rest
    else c1 :: removeDotDot (c2 :: rest)

/-- The sanitization in `generateLocalPath` for `preserveDirectoryStructure`:
`s3Key.replace(two-dot-regex-global, empty).replace(leading-slash-run, empty)`. -/
def sanitizeKey (key : String) : String :=
  String.mk ((removeDotDot key.data).dropWhile (fun c => c = '/'))

/-- `parseS3Uri` from `s3-sync.ts`: requires the literal prefix `s3://`,
splits the remainder at its first separator into bucket and key, and
rejects an empty bucket or key.  Character-level: JavaScript's
`startsWith`, `indexOf` and `slice` on the code units coincide with these
list operations because the searched characters are ASCII. -/
def parseS3Uri (s3Uri : String) : Except String (String × String) :=
  if decide (s3Uri.data.take 5 = "s3://".data) = false then
    .error ("Invalid S3 URI format: " ++ s3Uri ++ ". Must start with \x27s3://\x27")
  else
    let withoutProtocol := s3Uri.data.drop 5
    if decide ('/' ∈ withoutProtocol) = false then
      .error ("Invalid S3 URI format: " ++ s3Uri ++ ". Must include bucket and key")
    else
      let bucket := withoutProtocol.takeWhile (fun c => c ≠ '/')
      let key := (withoutProtocol.dropWhile (fun c => c ≠ '/')).drop 1
      if bucket.isEmpty ∨ key.isEmpty then
        .error ("Invalid S3 URI format: " ++ s3Uri ++ ". Both bucket and key are required")
      else .ok (String.mk bucket, String.mk key)

/-- `isS3Uri` from `s3-sync.ts`. -/
def isS3Uri (uri : String) : Bool :=
  "s3://".data.isPrefixOf uri.data

/-- Decidable equality of `Except` results, used to evaluate the model at
closed inputs. -/
instance {ε α : Type} [DecidableEq ε] [DecidableEq α] : DecidableEq (Except ε α) := fun a b =>
  match a, b with
  | .error x, .error y =>
    if h : x = y then isTrue (by rw [h]) else isFalse (fun e => h (by cases e; rfl))
  | .error _, .ok _ => isFalse (fun e => Except.noConfusion e)
  | .ok _, .error _ => isFalse (fun e => Except.noConfusion e)
  | .ok x, .ok y =>
    if h : x = y then isTrue (by rw [h]) else isFalse (fun e => h (by cases e; rfl))

/-- `S3FileInfo` from `s3-sync.ts`; timestamps are modelled as naturals.
The field `exists` of the source is spelled `exists'` (Lean keyword). -/
structure S3FileInfo where
  exists' : Bool
  lastModified : Option Nat := none
  etag : Option String := none
  size : Option Nat := none
deriving DecidableEq, Repr

/-- `isS3FileNewer` from `s3-sync.ts`. -/
def isS3FileNewer (s3Info localInfo : S3FileInfo) : Bool :=
  if localInfo.exists' = false then
    true
  else if s3Info.exists' = false ∨ s3Info.lastModified = none ∨ localInfo.lastModified = none then
    false
  else
    match s3Info.lastModified, localInfo.lastModified with
    | some s, some l => decide (l < s)
    | _, _ => false

/-- An entry of the modelled local filesystem: a directory or a regular
file with its content and its modification time. -/
inductive Entry where
  | dir (mtime : Nat)
  | file (content : String) (mtime : Nat)
deriving DecidableEq, Repr

/-- The local filesystem: an association list from paths to entries. -/
abbrev Fs := List (String × Entry)

def lookupFs (fs : Fs) (p : String) : Option Entry :=
  (fs.find? (fun e => e.1 = p)).map (fun e => e.2)

def insertFs (p : String) (e : Entry) (fs : Fs) : Fs :=
  (p, e) :: fs.filter (fun x => x.1 ≠ p)

def eraseFs (p : String) (fs : Fs) : Fs :=
  fs.filter (fun x => x.1 ≠ p)

/-- Externally visible actions of the service, in the order performed. -/
inductive Action where
  | mkdirRec (dir : String)
  | download (bucket key localPath : String)
  | fwrite (path content : String)
  | funlink (path : String)
deriving DecidableEq, Repr

/-- Result of a `HeadObject` request against the modelled store:
`notFound` covers the error-name and 404-status classification of
`getS3FileInfo`, `err` any other transport failure. -/
structure RemoteMeta where
  lastModified : Option Nat := none
  etag : Option String := none
  size : Option Nat := none
deriving DecidableEq, Repr

inductive HeadRes where
  | found (meta : RemoteMeta)
  | notFound
  | err (msg : String)
deriving DecidableEq, Repr

/-- Outcome of a `GetObject` request plus the body stream: the request can
fail, return no body, deliver the full content, or error mid-stream after
some partial content was already written. -/
inductive BodyRes where
  | ok (content : String)
  | noBody
  | sendErr (msg : String)
  | streamErr (msg : String) (partialContent : String)
deriving DecidableEq, Repr

/-- Oracles for everything outside the service: the process working
directory, the clock stamped onto written files, the remote store, and
whether a write or unlink at a given path succeeds. -/
structure World where
  cwd : String
  clock : Nat
  remote : String → String → HeadRes
  getBody : String → String → BodyRes
  writeOk : String → Bool
  unlinkOk : String → Bool

/-- `validateRootDirectory` from `s3-sync.ts`: stat the root (an ENOENT
maps to the root-not-found error), require a directory, then probe
writability by writing and unlinking `.mcp-write-test` inside it; a
failure of either the write or the unlink maps to the not-writable
error. -/
def validateRootDirectory (w : World) (fs : Fs) (rootPath : String) :
    Except String Unit × Fs × List Action :=
  match lookupFs fs rootPath with
  | none => (.error ("Root directory does not exist: " ++ rootPath), fs, [])
  | some (.file _ _) => (.error ("Root path is not a directory: " ++ rootPath), fs, [])
  | some (.dir _) =>
    let testFile := pathJoin rootPath ".mcp-write-test"
    if w.writeOk testFile then
      let fs1 := insertFs testFile (.file "test" w.clock) fs
      if w.unlinkOk testFile then
        (.ok (), eraseFs testFile fs1, [.fwrite testFile "test", .funlink testFile])
      else
        (.error ("Root directory is not writable: " ++ rootPath), fs1,
          [.fwrite testFile "test"])
    else
      (.error ("Root directory is not writable: " ++ rootPath), fs, [])

/-- `generateLocalPath` from `s3-sync.ts`; `preserve` is the service's
`preserveDirectoryStructure` option and `cwd` feeds `path.resolve`. -/
def generateLocalPath (preserve : Bool) (cwd rootPath s3Key : String) :
    Except String String :=
  if preserve then
    .ok (pathResolve cwd (pathJoin rootPath (sanitizeKey s3Key)))
  else
    let filename := pathBasename s3Key
    if filename = "" then
      .error ("Cannot extract filename from S3 key: " ++ s3Key)
    else
      .ok (pathJoin rootPath filename)

/-- `getS3FileInfo` from `s3-sync.ts`. -/
def getS3FileInfo (w : World) (bucket key : String) : Except String S3FileInfo :=
  match w.remote bucket key with
  | .found m =>
      .ok { exists' := true, lastModified := m.lastModified, etag := m.etag, size := m.size }
  | .notFound => .ok { exists' := false }
  | .err msg => .error msg

/-- `getLocalFileInfo` from `s3-sync.ts`: a missing entry maps to
`exists = false`; `fs.stat` succeeds on directories too and reports their
mtime. -/
def getLocalFileInfo (fs : Fs) (path : String) : S3FileInfo :=
  match lookupFs fs path with
  | some (.file _ m) => { exists' := true, lastModified := some m }
  | some (.dir m) => { exists' := true, lastModified := some m }
  | none => { exists' := false }

/-- `downloadFromS3` from `s3-sync.ts`: ensure the parent directory,
issue `GetObject`, stream the body to `localPath`.  Setup failures (the
request itself, a missing body) are wrapped with the download-failure
prefix by the surrounding catch; a stream error is rejected from inside
the returned promise, which the catch of this async method does not
intercept, so it propagates unwrapped.  On a stream error the partially
written file is unlinked best-effort and the unlink's own failure is
swallowed. -/
def downloadFromS3 (w : World) (fs : Fs) (bucket key localPath : String) :
    Except String Unit × Fs × List Action :=
  let acts : List Action := [.mkdirRec (pathDirname localPath), .download bucket key localPath]
  match w.getBody bucket key with
  | .sendErr msg => (.error ("Failed to download from S3: " ++ msg), fs, acts)
  | .noBody => (.error "Failed to download from S3: No body in S3 response", fs, acts)
  | .ok content => (.ok (), insertFs localPath (.file content w.clock) fs, acts)
  | .streamErr msg partialContent =>
    let fs1 := insertFs localPath (.file partialContent w.clock) fs
    if w.unlinkOk localPath then
      (.error msg, eraseFs localPath fs1, acts ++ [.funlink localPath])
    else
      (.error msg, fs1, acts ++ [.funlink localPath])

/-- Body of `syncFile` from `s3-sync.ts`, before its boundary catch:
parse the locator, fetch remote and local metadata (a fan-out/join; the
local stat cannot fail in the model), fail if the remote object is
absent, skip when the local copy is current, otherwise download. -/
def syncFileAux (w : World) (fs : Fs) (s3Uri localPath : String) :
    Except String Bool × Fs × List Action :=
  match parseS3Uri s3Uri with
  | .error e => (.error e, fs, [])
  | .ok (bucket, key) =>
    match getS3FileInfo w bucket key with
    | .error e => (.error e, fs, [])
    | .ok s3Info =>
      let localInfo := getLocalFileInfo fs localPath
      if s3Info.exists' = false then
        (.error ("S3 file does not exist: " ++ s3Uri), fs, [])
      else if isS3FileNewer s3Info localInfo = false then
        (.ok false, fs, [])
      else
        match downloadFromS3 w fs bucket key localPath with
        | (.error e, fs1, acts) => (.error e, fs1, acts)
        | (.ok _, fs1, acts) => (.ok true, fs1, acts)

/-- `syncFile` from `s3-sync.ts`: the whole body is wrapped in a catch
that re-raises with the uniform sync-failure prefix. -/
def syncFile (w : World) (fs : Fs) (s3Uri localPath : String) :
    Except String Bool × Fs × List Action :=
  match syncFileAux w fs s3Uri localPath with
  | (.error e, fs1, acts) => (.error ("S3 sync failed: " ++ e), fs1, acts)
  | (.ok b, fs1, acts) => (.ok b, fs1, acts)

/-- `S3SyncResult` from `s3-sync.ts`. -/
structure S3SyncResult where
  wasDownloaded : Bool
  localPath : String
  filename : String
deriving DecidableEq, Repr

/-- Body of `syncToRoot` from `s3-sync.ts`, before its boundary catch:
validate the root, parse the locator, build the local path, enforce that
its resolution stays at or strictly under the resolved root, then
delegate to `syncFile`. -/
def syncToRootAux (w : World) (preserve : Bool) (fs : Fs) (s3Uri rootPath : String) :
    Except String S3SyncResult × Fs × List Action :=
  match validateRootDirectory w fs rootPath with
  | (.error e, fs1, acts1) => (.error e, fs1, acts1)
  | (.ok _, fs1, acts1) =>
    match parseS3Uri s3Uri with
    | .error e => (.error e, fs1, acts1)
    | .ok (_, key) =>
      match generateLocalPath preserve w.cwd rootPath key with
      | .error e => (.error e, fs1, acts1)
      | .ok localPath =>
        let filename := pathBasename localPath
        let resolvedLocalPath := pathResolve w.cwd localPath
        let resolvedRootPath := pathResolve w.cwd rootPath
        if (resolvedRootPath ++ "/").data.isPrefixOf resolvedLocalPath.data = false ∧
            resolvedLocalPath ≠ resolvedRootPath then
          (.error ("Generated path is outside root directory: " ++ resolvedLocalPath),
            fs1, acts1)
        else
          match syncFile w fs1 s3Uri localPath with
          | (.error e, fs2, acts2) => (.error e, fs2, acts1 ++ acts2)
          | (.ok wasDownloaded, fs2, acts2) =>
            (.ok { wasDownloaded := wasDownloaded, localPath := localPath,
                   filename := filename }, fs2, acts1 ++ acts2)

/-- `syncToRoot` from `s3-sync.ts`: the whole body is wrapped in a catch
that re-raises with the uniform sync-failure prefix. -/
def syncToRoot (w : World) (preserve : Bool) (fs : Fs) (s3Uri rootPath : String) :
    Except String S3SyncResult × Fs × List Action :=
  match syncToRootAux w preserve fs s3Uri rootPath with
  | (.error e, fs1, acts) => (.error ("S3 sync failed: " ++ e), fs1, acts)
  | (.ok r, fs1, acts) => (.ok r, fs1, acts)

/-- Sanitization as the specification words it: strip exactly the
parent-directory traversal segments and the leading separators from the
key, leaving the rest of the key unchanged.  Stated only to compare with
the source's `sanitizeKey`. -/
def sanitizeSpec (key : String) : String :=
  String.mk (joinChar '/'
    ((splitChar '/' (key.data.dropWhile (fun c => c = '/'))).filter
      (fun seg => seg ≠ ['.', '.'])))

/-- A sync-boundary result either succeeded or failed with a message
carrying the uniform sync-failure prefix of `s3-sync.ts`. -/
def syncPrefixed {α : Type} : Except String α → Prop
  | .ok _ => True
  | .error m => ∃ r, m = "S3 sync failed: " ++ r

/-! Concrete fixtures used by closed witnesses and counterexamples. -/

/-- A world whose store has no objects; probes succeed. -/
def wNotFound : World :=
  { cwd := "/w", clock := 10, remote := fun _ _ => .notFound,
    getBody := fun _ _ => .noBody, writeOk := fun _ => true, unlinkOk := fun _ => true }

/-- A world with one object everywhere, modified at time 7, body "hello". -/
def wFound : World :=
  { cwd := "/", clock := 10, remote := fun _ _ => .found { lastModified := some 7 },
    getBody := fun _ _ => .ok "hello", writeOk := fun _ => true, unlinkOk := fun _ => true }

/-- A world whose downloads fail mid-stream after partial content "par". -/
def wStream : World :=
  { cwd := "/", clock := 10, remote := fun _ _ => .found { lastModified := some 7 },
    getBody := fun _ _ => .streamErr "connection reset" "par",
    writeOk := fun _ => true, unlinkOk := fun _ => true }

/-- A filesystem with a single root directory `/data`. -/
def fsData : Fs := [("/data", .dir 0)]

/-- `/data` plus a pre-existing file named like the writability probe. -/
def fsDataProbe : Fs := [("/data", .dir 0), ("/data/.mcp-write-test", .file "old" 3)]

/-- A filesystem whose root is the relative path `a/../..`, which resolves
above the working directory. -/
def fsEscape : Fs := [("a/../..", .dir 0)]

/-! Helper lemmas. -/

theorem lookupFs_insertFs (fs : Fs) (p : String) (e : Entry) :
    lookupFs (insertFs p e fs) p = some e := by
  simp [lookupFs, insertFs]

theorem lookupFs_eraseFs (fs : Fs) (p : String) :
    lookupFs (eraseFs p fs) p = none := by
  have hnone : List.find? (fun e => decide (e.1 = p))
      (List.filter (fun x => decide (x.1 ≠ p)) fs) = none := by
    rw [List.find?_eq_none]
    intro x hx
    have h := (List.mem_filter.mp hx).2
    simpa using h
  simp [lookupFs, eraseFs, hnone]

theorem head?_dropWhile_ne {α : Type} (p : α → Bool) (l : List α) (a : α)
    (h : (l.dropWhile p).head? = some a) : p a = false := by
  induction l with
  | nil => simp [List.dropWhile] at h
  | cons x xs ih =>
    by_cases hx : p x
    · rw [List.dropWhile_cons, if_pos hx] at h
      exact ih h
    · rw [List.dropWhile_cons, if_neg hx] at h
      simp only [List.head?_cons, Option.some.injEq] at h
      rw [← h]
      simpa using hx

theorem takeWhile_append_cons {α : Type} (p : α → Bool) (b k : List α) (a : α)
    (hb : ∀ x ∈ b, p x = true) (ha : p a = false) :
    (b ++ a :: k).takeWhile p = b := by
  induction b with
  | nil => simp [List.takeWhile_cons, ha]
  | cons x xs ih =>
    have hx := hb x (by simp)
    simp only [List.cons_append, List.takeWhile_cons, hx, if_true]
    rw [ih (fun y hy => hb y (by simp [hy]))]

theorem dropWhile_append_cons {α : Type} (p : α → Bool) (b k : List α) (a : α)
    (hb : ∀ x ∈ b, p x = true) (ha : p a = false) :
    (b ++ a :: k).dropWhile p = a :: k := by
  induction b with
  | nil => simp [List.dropWhile_cons, ha]
  | cons x xs ih =>
    have hx := hb x (by simp)
    simp only [List.cons_append, List.dropWhile_cons, hx, if_true]
    exact ih (fun y hy => hb y (by simp [hy]))

theorem removeDotDot_head (l : List Char) (h : l.head? ≠ some '.') :
    (removeDotDot l).head? ≠ some '.' := by
  match l with
  | [] => exact h
  | [c] => exact h
  | c1 :: c2 :: rest =>
    have hc : c1 ≠ '.' := by
      intro e; exact h (by simp [e])
    rw [removeDotDot, if_neg (by simp [hc])]
    simpa using hc

theorem removeDotDot_noDotDot : ∀ (l : List Char), ¬ (['.', '.'] <:+: removeDotDot l)
  | [] => by simp [removeDotDot]
  | [c] => by
    intro h
    have := h.length_le
    simp [removeDotDot] at this
  | c1 :: c2 :: rest => by
    by_cases h : c1 = '.' ∧ c2 = '.'
    · rw [removeDotDot, if_pos h]
      exact removeDotDot_noDotDot rest
    · rw [removeDotDot, if_neg h]
      intro hinf
      rcases List.infix_cons_iff.mp hinf with hpre | hinf2
      · obtain ⟨t, ht⟩ := hpre
        have h1 : c1 = '.' := by
          have hh := congrArg List.head? ht
          simpa using hh.symm
        have h2 : (removeDotDot (c2 :: rest)).head? = some '.' := by
          have hh := congrArg (fun l => l.tail.head?) ht
          simpa using hh.symm
        have hc2 : c2 ≠ '.' := by
          intro e; exact h ⟨h1, e⟩
        exact removeDotDot_head (c2 :: rest) (by simpa using hc2) h2
      · exact removeDotDot_noDotDot (c2 :: rest) hinf2

theorem sanitizeKey_noDotDot (key : String) :
    ¬ (['.', '.'] <:+: (sanitizeKey key).data) := by
  intro h
  exact removeDotDot_noDotDot key.data
    (h.trans (List.dropWhile_suffix (fun c => c = '/')).isInfix)

theorem sanitizeKey_head (key : String) :
    (sanitizeKey key).data.head? ≠ some '/' := by
  intro h
  have hne := head?_dropWhile_ne (fun c => decide (c = '/')) (removeDotDot key.data) '/' h
  simp at hne

/-! Claims. -/

/-- C3: `isS3FileNewer` is a pure total function on metadata pairs,
evaluated in order: a non-existent local file yields `true` regardless of
the remote metadata; otherwise a non-existent remote or an unavailable
timestamp on either side yields `false`; otherwise the result is `true`
iff the remote timestamp is strictly later, so equal timestamps yield
`false`. -/
theorem isS3FileNewer_spec (s3Info localInfo : S3FileInfo) :
    (localInfo.exists' = false → isS3FileNewer s3Info localInfo = true)
  ∧ (localInfo.exists' = true →
      (s3Info.exists' = false ∨ s3Info.lastModified = none ∨ localInfo.lastModified = none) →
      isS3FileNewer s3Info localInfo = false)
  ∧ (∀ ts tl : Nat, localInfo.exists' = true → s3Info.exists' = true →
      s3Info.lastModified = some ts → localInfo.lastModified = some tl →
      (isS3FileNewer s3Info localInfo = true ↔ tl < ts))
  ∧ (∀ t : Nat, localInfo.exists' = true → s3Info.exists' = true →
      s3Info.lastModified = some t → localInfo.lastModified = some t →
      isS3FileNewer s3Info localInfo = false) := by
  refine ⟨?_, ?_, ?_, ?_⟩
  · intro h
    simp [isS3FileNewer, h]
  · intro h hcase
    rw [isS3FileNewer, if_neg (by simp [h]), if_pos hcase]
  · intro ts tl hl hs hsm hlm
    rw [isS3FileNewer, if_neg (by simp [hl]), if_neg (by simp [hs, hsm, hlm]), hsm, hlm]
    simp
  · intro t hl hs hsm hlm
    rw [isS3FileNewer, if_neg (by simp [hl]), if_neg (by simp [hs, hsm, hlm]), hsm, hlm]
    simp

/-- Witness for C3 at a concrete input: a missing local file makes the
remote count as newer. -/
theorem isS3FileNewer_spec_witness :
    isS3FileNewer { exists' := true, lastModified := some 3 } { exists' := false } = true :=
  (isS3FileNewer_spec _ _).1 rfl

/-- C2: `parseS3Uri` succeeds exactly on strings of the shape
`s3://bucket/key` with non-empty bucket (free of separators, being the
text before the first separator of the remainder) and non-empty key (the
whole rest, separators allowed); every failure carries the malformed
locator message. -/
theorem parseS3Uri_spec :
    (∀ (b k : List Char), '/' ∉ b → b ≠ [] → k ≠ [] →
        parseS3Uri (String.mk ("s3://".data ++ b ++ '/' :: k)) =
          .ok (String.mk b, String.mk k))
  ∧ (∀ (s b k : String), parseS3Uri s = .ok (b, k) →
        b ≠ "" ∧ k ≠ "" ∧ '/' ∉ b.data ∧ s = "s3://" ++ b ++ "/" ++ k)
  ∧ (∀ (s m : String), parseS3Uri s = .error m →
        ∃ r, m = "Invalid S3 URI format: " ++ r) := by
  refine ⟨?_, ?_, ?_⟩
  · intro b k hb hbne hkne
    have hdata : (String.mk ("s3://".data ++ b ++ '/' :: k)).data
        = "s3://".data ++ (b ++ '/' :: k) := by
      show "s3://".data ++ b ++ '/' :: k = _
      rw [List.append_assoc]
    have h5 : ("s3://".data).length = 5 := rfl
    have htake : ("s3://".data ++ (b ++ '/' :: k)).take 5 = "s3://".data := by
      rw [← h5, List.take_left]
    have hdrop : ("s3://".data ++ (b ++ '/' :: k)).drop 5 = b ++ '/' :: k := by
      rw [← h5, List.drop_left]
    have hbAll : ∀ x ∈ b, (fun c => decide (c ≠ '/')) x = true := by
      intro x hx
      simp only [decide_eq_true_iff]
      intro e
      exact hb (e ▸ hx)
    have htw : (b ++ '/' :: k).takeWhile (fun c => decide (c ≠ '/')) = b :=
      takeWhile_append_cons _ b k '/' hbAll (by simp)
    have hdw : (b ++ '/' :: k).dropWhile (fun c => decide (c ≠ '/')) = '/' :: k :=
      dropWhile_append_cons _ b k '/' hbAll (by simp)
    unfold parseS3Uri
    rw [hdata, htake, hdrop]
    rw [if_neg (by simp), if_neg (by simp)]
    simp only [htw, hdw, List.drop_succ_cons, List.drop_zero]
    rw [if_neg]
    simp only [List.isEmpty_iff]
    exact fun hor => hor.elim hbne hkne
  · intro s b k hok
    unfold parseS3Uri at hok
    by_cases h1 : s.data.take 5 = "s3://".data
    case neg => rw [if_pos (by simp [h1])] at hok; cases hok
    rw [if_neg (by simp [h1])] at hok
    by_cases h2 : '/' ∈ s.data.drop 5
    case neg => rw [if_pos (by simp [h2])] at hok; cases hok
    rw [if_neg (by simp [h2])] at hok
    by_cases h3 : ((s.data.drop 5).takeWhile (fun c => decide (c ≠ '/'))).isEmpty = true ∨
        (((s.data.drop 5).dropWhile (fun c => decide (c ≠ '/'))).drop 1).isEmpty = true
    case pos => rw [if_pos h3] at hok; cases hok
    rw [if_neg h3] at hok
    simp only [List.isEmpty_iff, not_or] at h3
    obtain ⟨htwne, hdwne⟩ := h3
    injection hok with hok
    injection hok with hb hk
    have hdwcons : ∃ t, (s.data.drop 5).dropWhile (fun c => decide (c ≠ '/')) = '/' :: t := by
      match hdd : (s.data.drop 5).dropWhile (fun c => decide (c ≠ '/')) with
      | [] =>
        exfalso
        rw [List.dropWhile_eq_nil_iff] at hdd
        have := hdd '/' h2
        simp at this
      | a :: t =>
        have ha := head?_dropWhile_ne (fun c => decide (c ≠ '/')) (s.data.drop 5) a
          (by rw [hdd]; rfl)
        simp only [decide_eq_false_iff_not, not_not] at ha
        exact ⟨t, by rw [ha]⟩
    obtain ⟨t, ht⟩ := hdwcons
    refine ⟨?_, ?_, ?_, ?_⟩
    · rw [← hb]
      intro e
      exact htwne (congrArg String.data e)
    · rw [← hk]
      intro e
      apply hdwne
      have := congrArg String.data e
      simpa using this
    · rw [← hb]
      intro hmem
      have := List.mem_takeWhile_imp hmem
      simp at this
    · have hbd : b.data = (s.data.drop 5).takeWhile (fun c => decide (c ≠ '/')) := by
        rw [← hb]
      have hkd : k.data = t := by
        rw [← hk]
        show ((s.data.drop 5).dropWhile (fun c => decide (c ≠ '/'))).drop 1 = t
        rw [ht]
        simp
      have hslash : ("/" : String).data = ['/'] := rfl
      apply String.ext
      calc s.data
          = s.data.take 5 ++ s.data.drop 5 := (List.take_append_drop 5 s.data).symm
        _ = "s3://".data ++ ((s.data.drop 5).takeWhile (fun c => decide (c ≠ '/')) ++
              (s.data.drop 5).dropWhile (fun c => decide (c ≠ '/'))) := by
            rw [h1, List.takeWhile_append_dropWhile]
        _ = "s3://".data ++ (b.data ++ '/' :: k.data) := by rw [hbd, hkd, ht]
        _ = ("s3://" ++ b ++ "/" ++ k).data := by
            simp [String.data_append, hslash, List.append_assoc]
  · intro s m herr
    unfold parseS3Uri at herr
    by_cases h1 : s.data.take 5 = "s3://".data
    case neg =>
      rw [if_pos (by simp [h1])] at herr
      injection herr with herr
      exact ⟨s ++ ". Must start with \x27s3://\x27", by rw [← herr, String.append_assoc]⟩
    rw [if_neg (by simp [h1])] at herr
    by_cases h2 : '/' ∈ s.data.drop 5
    case neg =>
      rw [if_pos (by simp [h2])] at herr
      injection herr with herr
      exact ⟨s ++ ". Must include bucket and key", by rw [← herr, String.append_assoc]⟩
    rw [if_neg (by simp [h2])] at herr
    by_cases h3 : ((s.data.drop 5).takeWhile (fun c => decide (c ≠ '/'))).isEmpty = true ∨
        (((s.data.drop 5).dropWhile (fun c => decide (c ≠ '/'))).drop 1).isEmpty = true
    case neg => rw [if_neg h3] at herr; cases herr
    rw [if_pos h3] at herr
    injection herr with herr
    exact ⟨s ++ ". Both bucket and key are required", by rw [← herr, String.append_assoc]⟩

/-- Witness for C2 at a concrete input: a well-formed locator with a
separator inside the key parses into its bucket and key. -/
theorem parseS3Uri_spec_witness :
    parseS3Uri (String.mk ("s3://".data ++ ['b'] ++ '/' :: ['k', '/', 'x'])) =
      .ok (String.mk ['b'], String.mk ['k', '/', 'x']) :=
  parseS3Uri_spec.1 ['b'] ['k', '/', 'x'] (by decide) (by decide) (by decide)

/-- C5 counterexample: the source's sanitization removes every occurrence
of two consecutive dots, not only parent-directory traversal *segments*.
For the key `a..b` — which contains no traversal segment and no leading
separator, so the claim forces the destination `/data/a..b` — the code
produces `/data/ab` instead, altering the kept part of the key. -/
theorem generateLocalPath_preserve_cx :
    generateLocalPath true "/" "/data" "a..b" = .ok "/data/ab"
  ∧ sanitizeSpec "a..b" = "a..b"
  ∧ pathResolve "/" (pathJoin "/data" (sanitizeSpec "a..b")) = "/data/a..b"
  ∧ ("/data/ab" : String) ≠ "/data/a..b" := by
  exact ⟨by decide, by decide, by decide, by decide⟩

/-- C5 (amended): with `preserveStructure` true, `buildLocalPath` returns
the resolution of `rootPath` joined with `sanitize(key)`, where `sanitize`
removes every occurrence of the two-character substring dot-dot anywhere
in the key (also inside ordinary file names) and then strips leading
separators; the sanitized key therefore contains no two consecutive dots
and does not start with a separator. -/
theorem generateLocalPath_preserve_spec (cwd rootPath key : String) :
    generateLocalPath true cwd rootPath key =
      .ok (pathResolve cwd (pathJoin rootPath (sanitizeKey key)))
  ∧ ¬ (['.', '.'] <:+: (sanitizeKey key).data)
  ∧ (sanitizeKey key).data.head? ≠ some '/' :=
  ⟨rfl, sanitizeKey_noDotDot key, sanitizeKey_head key⟩

/-- C6 counterexample: a key that merely ends in a separator does not
fail: `basename` ignores trailing separators, so the key `file/` yields
the destination `/data/file` instead of the empty-filename error the
claim requires. -/
theorem generateLocalPath_basename_cx :
    ("file/" : String).data.getLast? = some '/'
  ∧ generateLocalPath false "/" "/data" "file/" = .ok "/data/file" := by
  exact ⟨by decide, by decide⟩

/-- C6 (amended): with `preserveStructure` false, `buildLocalPath` returns
`rootPath` joined with `basename(key)` and fails with the empty-filename
error exactly when the base name is empty, which happens precisely when
the key consists solely of separators (in particular when it is empty) —
not whenever the key merely ends in a separator, since `basename` ignores
trailing separators. -/
theorem generateLocalPath_basename_spec (cwd rootPath key : String) :
    (generateLocalPath false cwd rootPath key =
      if pathBasename key = "" then
        .error ("Cannot extract filename from S3 key: " ++ key)
      else .ok (pathJoin rootPath (pathBasename key)))
  ∧ (pathBasename key = "" ↔ ∀ c ∈ key.data, c = '/') := by
  constructor
  · rfl
  constructor
  · intro h
    have hl : (((key.data.reverse.dropWhile (fun c => decide (c = '/'))).takeWhile
        (fun c => decide (c ≠ '/'))).reverse) = [] := congrArg String.data h
    rw [List.reverse_eq_nil_iff] at hl
    have hd : key.data.reverse.dropWhile (fun c => decide (c = '/')) = [] := by
      match hdd : key.data.reverse.dropWhile (fun c => decide (c = '/')) with
      | [] => rfl
      | a :: t =>
        exfalso
        have ha := head?_dropWhile_ne (fun c => decide (c = '/')) key.data.reverse a
          (by rw [hdd]; rfl)
        rw [hdd, List.takeWhile_cons, if_pos (by simpa using ha)] at hl
        cases hl
    rw [List.dropWhile_eq_nil_iff] at hd
    intro c hc
    have := hd c (List.mem_reverse.mpr hc)
    simpa using this
  · intro h
    have hd : key.data.reverse.dropWhile (fun c => decide (c = '/')) = [] := by
      rw [List.dropWhile_eq_nil_iff]
      intro x hx
      simpa using h x (List.mem_reverse.mp hx)
    apply String.ext
    show (((key.data.reverse.dropWhile (fun c => decide (c = '/'))).takeWhile
        (fun c => decide (c ≠ '/'))).reverse) = ("" : String).data
    rw [hd]
    rfl

/-- C4: when the remote metadata lookup classifies the object as absent,
`syncFile` fails with the remote-object-not-found error (re-wrapped once
at the boundary with the sync-failure prefix), performs no action at all
— in particular no download — and returns the filesystem unchanged. -/
theorem syncFile_remoteAbsent (w : World) (fs : Fs) (s3Uri localPath bucket key : String)
    (hparse : parseS3Uri s3Uri = .ok (bucket, key))
    (habsent : w.remote bucket key = .notFound) :
    syncFile w fs s3Uri localPath =
      (.error ("S3 sync failed: " ++ ("S3 file does not exist: " ++ s3Uri)), fs, []) := by
  simp [syncFile, syncFileAux, getS3FileInfo, hparse, habsent]

/-- Witness for C4 at a concrete input. -/
theorem syncFile_remoteAbsent_witness :
    syncFile wNotFound [] "s3://b/k" "/data/k" =
      (.error ("S3 sync failed: " ++ ("S3 file does not exist: " ++ "s3://b/k")), [], []) :=
  syncFile_remoteAbsent wNotFound [] "s3://b/k" "/data/k" "b" "k" (by decide) rfl

/-- C7: on an error during the body stream, `downloadFromS3` propagates
the original stream error (unwrapped — the rejection escapes the method's
catch) whether or not the cleanup unlink succeeds, the partially written
file is removed when the unlink succeeds, and a failed cleanup leaves the
partial file but is swallowed, never replacing the primary error. -/
theorem downloadFromS3_streamErr (w : World) (fs : Fs)
    (bucket key localPath msg partialContent : String)
    (h : w.getBody bucket key = .streamErr msg partialContent) :
    (downloadFromS3 w fs bucket key localPath).1 = .error msg
  ∧ (w.unlinkOk localPath = true →
      lookupFs (downloadFromS3 w fs bucket key localPath).2.1 localPath = none)
  ∧ (w.unlinkOk localPath = false →
      lookupFs (downloadFromS3 w fs bucket key localPath).2.1 localPath =
        some (.file partialContent w.clock)) := by
  refine ⟨?_, ?_, ?_⟩
  · simp only [downloadFromS3, h]
    by_cases hu : w.unlinkOk localPath <;> simp [hu]
  · intro hu
    simp only [downloadFromS3, h, hu, if_pos]
    simp [lookupFs_eraseFs]
  · intro hu
    simp only [downloadFromS3, h, hu]
    simp [lookupFs_insertFs]

/-- Witness for C7 at a concrete input: the stream fails after partial
content, the cleanup succeeds, the original error surfaces and the
partial file is gone. -/
theorem downloadFromS3_streamErr_witness :
    (downloadFromS3 wStream [] "b" "k" "/data/k").1 = .error "connection reset"
  ∧ lookupFs (downloadFromS3 wStream [] "b" "k" "/data/k").2.1 "/data/k" = none := by
  have h := downloadFromS3_streamErr wStream [] "b" "k" "/data/k" "connection reset" "par" rfl
  exact ⟨h.1, h.2.1 rfl⟩

/-- C8 counterexample: the sync-failure prefix is not applied once.  Both
`syncFile` and `syncToRoot` wrap the message they catch, so a failure
inside `syncFile` that surfaces through `syncToRoot` carries the prefix
twice: syncing a missing object into `/data` yields the doubled message
below. -/
theorem syncBoundaryWrap_cx :
    (syncToRoot wNotFound false fsData "s3://b/k" "/data").1 =
      .error "S3 sync failed: S3 sync failed: S3 file does not exist: s3://b/k" := by
  decide

/-- C8 (amended): every internal failure of `syncFile` or `syncToRoot` is
caught at that boundary and re-raised with the uniform sync-failure
prefix prepended to the caught message; each boundary applies the prefix
once, so a failure raised inside `syncFile` and surfaced through
`syncToRoot` carries it twice; apart from the best-effort cleanup after a
partial download, no failure is swallowed. -/
theorem syncBoundaryWrap (w : World) (preserve : Bool) (fs : Fs)
    (s3Uri localPath rootPath : String) :
    syncPrefixed (syncFile w fs s3Uri localPath).1
  ∧ syncPrefixed (syncToRoot w preserve fs s3Uri rootPath).1
  ∧ (∀ key lp fs1 acts1,
      validateRootDirectory w fs rootPath = (.ok (), fs1, acts1) →
      (∃ bkt, parseS3Uri s3Uri = .ok (bkt, key)) →
      generateLocalPath preserve w.cwd rootPath key = .ok lp →
      ¬ ((pathResolve w.cwd rootPath ++ "/").data.isPrefixOf
            (pathResolve w.cwd lp).data = false ∧
          pathResolve w.cwd lp ≠ pathResolve w.cwd rootPath) →
      ∀ m fs2 acts2, syncFile w fs1 s3Uri lp = (.error m, fs2, acts2) →
      (syncToRoot w preserve fs s3Uri rootPath).1 = .error ("S3 sync failed: " ++ m)) := by
  refine ⟨?_, ?_, ?_⟩
  · rcases hA : syncFileAux w fs s3Uri localPath with ⟨r, fs1, acts⟩
    cases r with
    | error e =>
      simp only [syncFile, hA, syncPrefixed]
      exact ⟨e, rfl⟩
    | ok b => simp [syncFile, hA, syncPrefixed]
  · rcases hA : syncToRootAux w preserve fs s3Uri rootPath with ⟨r, fs1, acts⟩
    cases r with
    | error e =>
      simp only [syncToRoot, hA, syncPrefixed]
      exact ⟨e, rfl⟩
    | ok b => simp [syncToRoot, hA, syncPrefixed]
  · intro key lp fs1 acts1 hval hp hg hcheck m fs2 acts2 hsf
    obtain ⟨bkt, hpp⟩ := hp
    simp only [syncToRoot, syncToRootAux, hval, hpp, hg, if_neg hcheck, hsf]

/-- Witness for C8's amended claim at a concrete input: the inner failure
message (already prefixed by `syncFile`) is prefixed again by
`syncToRoot`. -/
theorem syncBoundaryWrap_witness :
    (syncToRoot wNotFound false fsData "s3://b/k" "/data").1 =
      .error ("S3 sync failed: " ++ "S3 sync failed: S3 file does not exist: s3://b/k") :=
  (syncBoundaryWrap wNotFound false fsData "s3://b/k" "/data/k" "/data").2.2
    "k" "/data/k" fsData
    [Action.fwrite "/data/.mcp-write-test" "test", Action.funlink "/data/.mcp-write-test"]
    (by decide) ⟨"b", by decide⟩ (by decide) (by decide)
    "S3 sync failed: S3 file does not exist: s3://b/k" fsData []
    (by decide)

theorem validateRootDirectory_no_download (w : World) (fs : Fs) (rootPath b k p : String) :
    Action.download b k p ∉ (validateRootDirectory w fs rootPath).2.2 := by
  rcases hl : lookupFs fs rootPath with _ | (mt | ⟨c, mt⟩)
  · simp [validateRootDirectory, hl]
  · by_cases hw : w.writeOk (pathJoin rootPath ".mcp-write-test")
    · by_cases hu : w.unlinkOk (pathJoin rootPath ".mcp-write-test") <;>
        simp [validateRootDirectory, hl, hw, hu]
    · simp [validateRootDirectory, hl, hw]
  · simp [validateRootDirectory, hl]

theorem downloadFromS3_download_mem (w : World) (fs : Fs)
    (bucket key localPath b k p : String)
    (h : Action.download b k p ∈ (downloadFromS3 w fs bucket key localPath).2.2) :
    p = localPath := by
  rcases hg : w.getBody bucket key with c | _ | m | ⟨m, pc⟩
  · simp only [downloadFromS3, hg] at h
    simp at h
    exact h.2.2
  · simp only [downloadFromS3, hg] at h
    simp at h
    exact h.2.2
  · simp only [downloadFromS3, hg] at h
    simp at h
    exact h.2.2
  · by_cases hu : w.unlinkOk localPath <;>
      · simp only [downloadFromS3, hg, hu] at h
        simp at h
        exact h.2.2

theorem syncFile_download_mem (w : World) (fs : Fs) (s3Uri localPath b k p : String)
    (h : Action.download b k p ∈ (syncFile w fs s3Uri localPath).2.2) :
    p = localPath := by
  have haux : Action.download b k p ∈ (syncFileAux w fs s3Uri localPath).2.2 := by
    rcases hA : syncFileAux w fs s3Uri localPath with ⟨r, fs1, acts⟩
    cases r <;> simp only [syncFile, hA] at h <;> simpa using h
  clear h
  unfold syncFileAux at haux
  rcases hp : parseS3Uri s3Uri with e | ⟨bucket, key⟩ <;> simp only [hp] at haux
  · simp at haux
  · rcases hs : getS3FileInfo w bucket key with e | info <;> simp only [hs] at haux
    · simp at haux
    · by_cases he : info.exists' = false
      · rw [if_pos he] at haux; simp at haux
      · rw [if_neg he] at haux
        by_cases hn : isS3FileNewer info (getLocalFileInfo fs localPath) = false
        · rw [if_pos hn] at haux; simp at haux
        · rw [if_neg hn] at haux
          rcases hd : downloadFromS3 w fs bucket key localPath with ⟨r, fs1, acts⟩
          simp only [hd] at haux
          refine downloadFromS3_download_mem w fs bucket key localPath b k p ?_
          rw [hd]
          cases r <;> simpa using haux

/-- C1: the only download `syncToRoot` can perform is at the generated
local path, and only after the containment check passed, so its
resolution is the resolved root or lies strictly under it (string-prefix
under root-plus-separator, the code's notion of nesting); whenever the
generated path fails that check, `syncToRoot` stops with the
path-escapes-root error, having performed no download (its only actions
are the root-validation probe writes). -/
theorem syncToRoot_containment (w : World) (preserve : Bool) (fs : Fs)
    (s3Uri rootPath : String) :
    (∀ b k p, Action.download b k p ∈ (syncToRoot w preserve fs s3Uri rootPath).2.2 →
        pathResolve w.cwd p = pathResolve w.cwd rootPath ∨
        (pathResolve w.cwd rootPath ++ "/").data.isPrefixOf (pathResolve w.cwd p).data = true)
  ∧ (∀ key lp fs1 acts1,
      validateRootDirectory w fs rootPath = (.ok (), fs1, acts1) →
      (∃ bkt, parseS3Uri s3Uri = .ok (bkt, key)) →
      generateLocalPath preserve w.cwd rootPath key = .ok lp →
      (pathResolve w.cwd rootPath ++ "/").data.isPrefixOf (pathResolve w.cwd lp).data = false →
      pathResolve w.cwd lp ≠ pathResolve w.cwd rootPath →
      syncToRoot w preserve fs s3Uri rootPath =
        (.error ("S3 sync failed: " ++ ("Generated path is outside root directory: " ++
            pathResolve w.cwd lp)), fs1, acts1)
      ∧ (∀ b k p, Action.download b k p ∉ acts1)) := by
  constructor
  · intro b k p hmem
    have hmem' : Action.download b k p ∈ (syncToRootAux w preserve fs s3Uri rootPath).2.2 := by
      rcases hA : syncToRootAux w preserve fs s3Uri rootPath with ⟨r, fs1, acts⟩
      cases r <;> simp only [syncToRoot, hA] at hmem <;> simpa using hmem
    unfold syncToRootAux at hmem'
    rcases hv : validateRootDirectory w fs rootPath with ⟨rv, fs1, acts1⟩
    have hnd : Action.download b k p ∉ acts1 := by
      have hx := validateRootDirectory_no_download w fs rootPath b k p
      rw [hv] at hx
      simpa using hx
    simp only [hv] at hmem'
    cases rv with
    | error e => exact absurd (by simpa using hmem') hnd
    | ok u =>
      rcases hp : parseS3Uri s3Uri with e | ⟨bkt, key⟩ <;> simp only [hp] at hmem'
      · exact absurd (by simpa using hmem') hnd
      · rcases hg : generateLocalPath preserve w.cwd rootPath key with e | lp <;>
          simp only [hg] at hmem'
        · exact absurd (by simpa using hmem') hnd
        · by_cases hchk : (pathResolve w.cwd rootPath ++ "/").data.isPrefixOf
              (pathResolve w.cwd lp).data = false ∧
              pathResolve w.cwd lp ≠ pathResolve w.cwd rootPath
          · rw [if_pos hchk] at hmem'
            exact absurd (by simpa using hmem') hnd
          · rw [if_neg hchk] at hmem'
            rcases hs : syncFile w fs1 s3Uri lp with ⟨rs, fs2, acts2⟩
            simp only [hs] at hmem'
            have hmem2 : Action.download b k p ∈ acts1 ++ acts2 := by
              cases rs <;> simpa using hmem'
            rcases List.mem_append.mp hmem2 with h1 | h2
            · exact absurd h1 hnd
            · have hpl : p = lp := syncFile_download_mem w fs1 s3Uri lp b k p (by rw [hs]; exact h2)
              subst hpl
              by_cases hpref : (pathResolve w.cwd rootPath ++ "/").data.isPrefixOf
                  (pathResolve w.cwd p).data = true
              · exact Or.inr hpref
              · left
                have hpf : (pathResolve w.cwd rootPath ++ "/").data.isPrefixOf
                    (pathResolve w.cwd p).data = false := by
                  cases hb : (pathResolve w.cwd rootPath ++ "/").data.isPrefixOf
                      (pathResolve w.cwd p).data
                  · rfl
                  · exact absurd hb hpref
                by_contra hne
                exact hchk ⟨hpf, hne⟩
  · intro key lp fs1 acts1 hval hp hg hx hne
    obtain ⟨bkt, hpp⟩ := hp
    constructor
    · simp only [syncToRoot, syncToRootAux, hval, hpp, hg, if_pos (And.intro hx hne)]
    · intro b k p
      have hnd := validateRootDirectory_no_download w fs rootPath b k p
      rw [hval] at hnd
      simpa using hnd

/-- Witness for C1 at a concrete input: a relative root with surplus
parent segments makes the generated path resolve outside the resolved
root, and `syncToRoot` stops with the path-escapes-root error after only
the validation-probe actions. -/
theorem syncToRoot_containment_witness :
    syncToRoot wNotFound false fsEscape "s3://b/f" "a/../.." =
      (.error ("S3 sync failed: " ++ ("Generated path is outside root directory: " ++
          pathResolve wNotFound.cwd "../f")), fsEscape,
        [Action.fwrite "../.mcp-write-test" "test", Action.funlink "../.mcp-write-test"]) :=
  ((syncToRoot_containment wNotFound false fsEscape "s3://b/f" "a/../..").2
    "f" "../f" fsEscape
    [Action.fwrite "../.mcp-write-test" "test", Action.funlink "../.mcp-write-test"]
    (by decide) ⟨"b", by decide⟩ (by decide) (by decide) (by decide)).1

/-- C9: two successive `syncFile` calls for the same locator and local
path against an unchanged remote: with the local file initially absent
the first call downloads and reports `wasDownloaded = true`; the second
call reports `wasDownloaded = false`, changes nothing and performs no
action (in particular no download).  The hypothesis `hclock` states that
the remote object was not modified after the moment the first download
stamps the local file. -/
theorem syncFile_idempotent (w : World) (fs : Fs)
    (s3Uri localPath bucket key content : String) (m : RemoteMeta)
    (hparse : parseS3Uri s3Uri = .ok (bucket, key))
    (hfound : w.remote bucket key = .found m)
    (habsent : lookupFs fs localPath = none)
    (hbody : w.getBody bucket key = .ok content)
    (hclock : ∀ tr, m.lastModified = some tr → tr ≤ w.clock) :
    (syncFile w fs s3Uri localPath).1 = .ok true
  ∧ syncFile w (syncFile w fs s3Uri localPath).2.1 s3Uri localPath =
      (.ok false, (syncFile w fs s3Uri localPath).2.1, []) := by
  have h1 : syncFile w fs s3Uri localPath =
      (.ok true, insertFs localPath (Entry.file content w.clock) fs,
        [Action.mkdirRec (pathDirname localPath), Action.download bucket key localPath]) := by
    simp [syncFile, syncFileAux, getS3FileInfo, getLocalFileInfo, isS3FileNewer,
      downloadFromS3, hparse, hfound, habsent, hbody]
  have hlook : lookupFs (insertFs localPath (Entry.file content w.clock) fs) localPath =
      some (Entry.file content w.clock) := lookupFs_insertFs fs localPath _
  constructor
  · rw [h1]
  · rw [h1]
    rcases hm : m.lastModified with _ | tr
    · simp [syncFile, syncFileAux, getS3FileInfo, getLocalFileInfo, isS3FileNewer,
        hparse, hfound, hlook, hm]
    · have hle := hclock tr hm
      simp [syncFile, syncFileAux, getS3FileInfo, getLocalFileInfo, isS3FileNewer,
        hparse, hfound, hlook, hm, Nat.not_lt.mpr hle]

/-- Witness for C9 at a concrete input. -/
theorem syncFile_idempotent_witness :
    (syncFile wFound [] "s3://b/k" "/data/k").1 = .ok true
  ∧ syncFile wFound (syncFile wFound [] "s3://b/k" "/data/k").2.1 "s3://b/k" "/data/k" =
      (.ok false, (syncFile wFound [] "s3://b/k" "/data/k").2.1, []) :=
  syncFile_idempotent wFound [] "s3://b/k" "/data/k" "b" "k" "hello" { lastModified := some 7 }
    (by decide) rfl rfl rfl (by intro tr htr; simp at htr; subst htr; decide)

/-- C10: the writability probe of `validateRootDirectory` always uses the
single fixed file name `.mcp-write-test` joined to the root: a successful
validation writes the four-byte content `test` to exactly that path and
then unlinks it, so a pre-existing entry of that name is first
overwritten and then deleted. -/
theorem validateRootDirectory_probe (w : World) (fs : Fs)
    (rootPath oldContent : String) (dmt omt : Nat)
    (hdir : lookupFs fs rootPath = some (.dir dmt))
    (_hpre : lookupFs fs (pathJoin rootPath ".mcp-write-test") = some (.file oldContent omt))
    (hw : w.writeOk (pathJoin rootPath ".mcp-write-test") = true)
    (hu : w.unlinkOk (pathJoin rootPath ".mcp-write-test") = true) :
    validateRootDirectory w fs rootPath =
      (.ok (), eraseFs (pathJoin rootPath ".mcp-write-test")
          (insertFs (pathJoin rootPath ".mcp-write-test") (.file "test" w.clock) fs),
        [.fwrite (pathJoin rootPath ".mcp-write-test") "test",
         .funlink (pathJoin rootPath ".mcp-write-test")])
  ∧ lookupFs (validateRootDirectory w fs rootPath).2.1
      (pathJoin rootPath ".mcp-write-test") = none := by
  have heq : validateRootDirectory w fs rootPath =
      (.ok (), eraseFs (pathJoin rootPath ".mcp-write-test")
          (insertFs (pathJoin rootPath ".mcp-write-test") (.file "test" w.clock) fs),
        [.fwrite (pathJoin rootPath ".mcp-write-test") "test",
         .funlink (pathJoin rootPath ".mcp-write-test")]) := by
    simp [validateRootDirectory, hdir, hw, hu]
  refine ⟨heq, ?_⟩
  rw [heq]
  exact lookupFs_eraseFs _ _

/-- Witness for C10 at a concrete input: `/data` already contains a file
named `.mcp-write-test` with content `old`; validation succeeds and the
file is gone afterwards. -/
theorem validateRootDirectory_probe_witness :
    validateRootDirectory wFound fsDataProbe "/data" =
      (.ok (), eraseFs (pathJoin "/data" ".mcp-write-test")
          (insertFs (pathJoin "/data" ".mcp-write-test") (.file "test" wFound.clock) fsDataProbe),
        [.fwrite (pathJoin "/data" ".mcp-write-test") "test",
         .funlink (pathJoin "/data" ".mcp-write-test")])
  ∧ lookupFs (validateRootDirectory wFound fsDataProbe "/data").2.1
      (pathJoin "/data" ".mcp-write-test") = none :=
  validateRootDirectory_probe wFound fsDataProbe "/data" "old" 0 3
    (by decide) (by decide) (by decide) (by decide)

end S3SyncModel
